import Mathlib

/-!
Verification of the ProjecTo exhibit core: the stage state machine
(`src/core/stage_controller.py`), the motion utilities
(`src/lerobot_integration/utils/robot_utils.py`), the manipulator device layer
(`src/lerobot_integration/robot_devices/robots/manipulator.py`) and the
enhanced robot interface (`src/robot/enhanced_robot_interface.py`).

Python dictionaries of joint setpoints are embedded as association lists
`List (String × ℚ)` (keys unique by dict construction; lookup is first match).
Floating-point setpoints are embedded as exact rationals, since all claimed
properties are algebraic. Fallible Python code (raised exceptions) is embedded
with `Option`. PyQt signal emissions are embedded as explicit event lists, and
reads/writes against the device adapter as explicit `AdapterOp` traces.
-/

namespace ProjecTo

/-- A Position: mapping from joint name to setpoint (Python dict). -/
abbrev Position := List (String × ℚ)

/-- First-match association-list lookup, the embedding of Python dict access. -/
def alookup {α : Type} (j : String) : List (String × α) → Option α
  | [] => none
  | (k, v) :: rest => if k = j then some v else alookup j rest

/-- Python dict update `d[j] = v`: replace in place if the key exists,
else append. -/
def setKey {α : Type} (ps : List (String × α)) (j : String) (v : α) :
    List (String × α) :=
  if (alookup j ps).isSome then
    ps.map (fun kv => if kv.1 = j then (j, v) else kv)
  else ps ++ [(j, v)]

/-- `robot_utils.check_position_safety`: every joint of `positions` that
appears in `limits` must lie inside its `(min, max)` range (inclusive). -/
def check_position_safety (positions : Position)
    (limits : List (String × (ℚ × ℚ))) : Bool :=
  positions.all fun jp =>
    match alookup jp.1 limits with
    | some lim => decide (lim.1 ≤ jp.2 ∧ jp.2 ≤ lim.2)
    | none => true

/-- One interpolated waypoint at parameter `t`: built from the entries of
`startPos`; a joint also present in `endPos` moves linearly, any other joint
keeps its start value (the loop body of `interpolate_positions`). -/
def interpStep (startPos endPos : Position) (t : ℚ) : Position :=
  startPos.map fun jv =>
    match alookup jv.1 endPos with
    | some e => (jv.1, jv.2 + t * (e - jv.2))
    | none => (jv.1, jv.2)

/-- `robot_utils.interpolate_positions`: `steps+1` evenly spaced waypoints.
The Python loop computes `t = step / steps`; with `steps = 0` the first
iteration divides by zero, hence `none`. With `steps + 1 ≤ 0` the Python
`range(steps + 1)` is empty and the function returns an empty list without
ever dividing. -/
def interpolate_positions (startPos endPos : Position) (steps : ℤ) :
    Option (List Position) :=
  if steps + 1 ≤ 0 then some []
  else if steps = 0 then none
  else some ((List.range (steps.toNat + 1)).map fun step : ℕ =>
    interpStep startPos endPos ((step : ℚ) / (steps : ℚ)))

/-- Python `int()` applied to a float: truncation toward zero. -/
def ratTrunc (q : ℚ) : ℤ := if 0 ≤ q then ⌊q⌋ else ⌈q⌉

/-- The step count a duration-based move computes in
`EnhancedRobotInterface._move_lerobot`: `int(duration * 10)`. -/
def lerobotSteps (duration : ℚ) : ℤ := ratTrunc (duration * 10)

/-- `manipulator.ensure_safe_goal_position` on one joint: bound the delta
`goal - present` to `[-M, M]` and add it back to `present`. -/
def ensure_safe_goal_position (goal present M : ℚ) : ℚ :=
  present + max (min (goal - present) M) (-M)

/-- The per-joint safety application inside `ManipulatorRobot.write_position`:
each joint of `goal` present in `present` is clamped, the rest pass through. -/
def apply_safe_goal (goal present : Position) (M : ℚ) : Position :=
  goal.map fun jg =>
    match alookup jg.1 present with
    | some p => (jg.1, ensure_safe_goal_position jg.2 p M)
    | none => (jg.1, jg.2)

/-! ## Manipulator device layer (`manipulator.py`) -/

/-- Outcome of `ManipulatorRobot._connect_real_devices`: the LeRobot driver
loads and the buses come up (`ok`), the driver module is missing
(`importError`, caught locally and answered by switching to mock mode), or
bus/camera construction raises some other exception (`raiseError`, which
propagates to `connect`'s generic handler). -/
inductive RealConnect
  | ok
  | importError
  | raiseError
deriving DecidableEq, Repr

/-- An I/O operation against the device adapter. -/
inductive AdapterOp
  | read
  | write (p : Position)
deriving DecidableEq, Repr

/-- State of a `ManipulatorRobot` plus the oracle describing its real-device
environment (what the external driver library would do). -/
structure MState where
  is_connected : Bool
  mock_mode : Bool
  /-- whether `config.follower_arms` is nonempty -/
  has_follower : Bool
  /-- motor names of the single follower arm -/
  follower_motors : List String
  /-- mock positions of the single follower arm -/
  mock_positions : Position
  max_relative_target : Option ℚ
  /-- oracle: what a real `Present_Position` read returns -/
  real_present : Position
  /-- oracle: whether a real `Goal_Position` write succeeds -/
  real_write_ok : Bool
  /-- oracle: what `_connect_real_devices` would do -/
  real_connect : RealConnect
deriving DecidableEq, Repr

/-- `ManipulatorRobot._connect_mock_devices`: zero-initialise the mock
positions of each configured follower arm. -/
def m_connect_mock (m : MState) : MState :=
  if m.has_follower then
    { m with mock_positions := m.follower_motors.map fun n => (n, (0 : ℚ)) }
  else m

/-- `ManipulatorRobot.connect`: already connected is a success no-op; mock
mode initialises mock devices; real mode consults the driver –– an
`ImportError` is caught and answered by switching to mock mode, any other
exception propagates to the generic handler, which returns `False`. -/
def m_connect (m : MState) : MState × Bool :=
  if m.is_connected then (m, true)
  else if m.mock_mode then ({ m_connect_mock m with is_connected := true }, true)
  else
    match m.real_connect with
    | .ok => ({ m with is_connected := true }, true)
    | .importError =>
        ({ m_connect_mock { m with mock_mode := true } with is_connected := true }, true)
    | .raiseError => (m, false)

/-- `ManipulatorRobot.is_mock`. -/
def m_is_mock (m : MState) : Bool := m.mock_mode

/-- `ManipulatorRobot.read_position("follower")`: raises (`none`) when not
connected; in mock mode returns the stored mock positions (empty when no
follower arm is configured); in real mode returns whatever the bus read
yields (read failures are caught there and produce an empty dict, both folded
into the `real_present` oracle). -/
def m_read_position (m : MState) : Option Position :=
  if m.is_connected then
    some (if m.mock_mode then
            (if m.has_follower then m.mock_positions else [])
          else m.real_present)
  else none

/-- Python dict update of the mock-position table with every joint of `upd`. -/
def updateKeys (ps upd : Position) : Position :=
  upd.foldl (fun acc kv => setKey acc kv.1 kv.2) ps

/-- `ManipulatorRobot.write_position(position, "follower")`: raises (`none`)
when not connected; when `max_relative_target` is configured it first reads
the present position (one adapter read) and clamps each requested joint that
has a present value; then the (possibly clamped) position is written — in
mock mode by updating the mock table (failing with `False` when no follower
arm is configured), in real mode according to the `real_write_ok` oracle.
Returns the new state, the success flag and the adapter-operation trace. -/
def m_write_position (m : MState) (pos : Position) :
    Option (MState × Bool × List AdapterOp) :=
  if m.is_connected then
    let current : Position :=
      if m.mock_mode then (if m.has_follower then m.mock_positions else [])
      else m.real_present
    let clamped : Position × List AdapterOp :=
      match m.max_relative_target with
      | some M =>
          if current.isEmpty then (pos, [AdapterOp.read])
          else (apply_safe_goal pos current M, [AdapterOp.read])
      | none => (pos, [])
    if m.mock_mode then
      if m.has_follower then
        some ({ m with mock_positions := updateKeys m.mock_positions clamped.1 },
              true, clamped.2 ++ [AdapterOp.write clamped.1])
      else some (m, false, clamped.2)
    else
      if m.real_write_ok then
        some (m, true, clamped.2 ++ [AdapterOp.write clamped.1])
      else some (m, false, clamped.2)
  else none

/-- `ManipulatorRobot.move_to_position`: tensor conversion is the identity in
this embedding, then `write_position(·, "follower")`. -/
def m_move_to_position (m : MState) (target : Position) :
    Option (MState × Bool × List AdapterOp) :=
  m_write_position m target

/-! ## Enhanced robot interface (`enhanced_robot_interface.py`) -/

/-- The PyQt signals of `EnhancedRobotInterface`, embedded as event values. -/
inductive REvent
  | status_changed (s : String)
  | position_reached (s : String)
  | movement_started (s : String)
  | movement_completed (s : String)
  | error_occurred (s : String)
deriving DecidableEq, Repr

/-- The waypoint-write loop of `robot_utils.smooth_move_to_position`: each
waypoint is passed to `robot.move_to_position` with its Boolean result
discarded; only a raised exception (robot disconnected, `none` in the
embedding) aborts the loop. Returns the final robot state, whether the loop
ran to completion without an exception, and the adapter trace so far. -/
def writeLoop : MState → List Position → MState × Bool × List AdapterOp
  | m, [] => (m, true, [])
  | m, p :: rest =>
    match m_write_position m p with
    | none => (m, false, [])
    | some (m2, _ok, ops) =>
        let r := writeLoop m2 rest
        (r.1, r.2.1, ops ++ r.2.2)

/-- `robot_utils.smooth_move_to_position`: read the current position,
interpolate `steps+1` waypoints, write them in order. Every exception inside
(read failure, division by zero in the interpolation, write raise) is caught
and reported as `False`. -/
def smooth_move_to_position (m : MState) (target : Position) (steps : ℤ) :
    MState × Bool × List AdapterOp :=
  match m_read_position m with
  | none => (m, false, [])
  | some current =>
    match interpolate_positions current target steps with
    | none => (m, false, [AdapterOp.read])
    | some path =>
        let r := writeLoop m path
        (r.1, r.2.1, AdapterOp.read :: r.2.2)

/-- `EnhancedRobotInterface._move_lerobot`: a truthy `duration` (present and
nonzero) selects the smooth path with `steps = int(duration * 10)`, otherwise
a single direct `move_to_position` write; any exception (e.g. the robot not
connected) is caught and reported as `False`. -/
def move_lerobot (m : MState) (target : Position) (duration : Option ℚ) :
    Bool × MState × List AdapterOp :=
  let direct : Bool × MState × List AdapterOp :=
    match m_move_to_position m target with
    | none => (false, m, [])
    | some (m2, ok, ops) => (ok, m2, ops)
  match duration with
  | some d =>
      if d = 0 then direct
      else
        let r := smooth_move_to_position m target (lerobotSteps d)
        (r.2.1, r.1, r.2.2)
  | none => direct

/-- State of an `EnhancedRobotInterface` (with the LeRobot robot object's
state carried separately as an `MState`). -/
structure ERState where
  is_connected : Bool
  current_position : String
  target_position : Option String
  is_moving : Bool
  torque_enabled : Bool
  saved_positions : List (String × Position)
  joint_limits : List (String × (ℚ × ℚ))
  /-- whether the LeRobot path is active (`use_lerobot` and a robot object) -/
  use_lerobot : Bool
deriving DecidableEq, Repr

/-- `EnhancedRobotInterface.move_to_position(position_name, duration)`:
rejects (returning `False`, touching nothing, emitting nothing) when
disconnected, already moving, the preset is unknown, or the target fails
`check_position_safety`; otherwise sets the moving flag and target, emits
`movement_started`, performs the move (LeRobot path or simulated basic
path), on success updates `current_position` and emits `position_reached`,
and in every case clears the moving flag and emits `movement_completed`.
Result: success flag, new interface state, new robot state, emitted events,
adapter trace. -/
def er_move_to_position (er : ERState) (m : MState) (name : String)
    (duration : Option ℚ) :
    Bool × ERState × MState × List REvent × List AdapterOp :=
  if ¬ er.is_connected then (false, er, m, [], [])
  else if er.is_moving then (false, er, m, [], [])
  else
    match alookup name er.saved_positions with
    | none => (false, er, m, [], [])
    | some target =>
      if ¬ check_position_safety target er.joint_limits then (false, er, m, [], [])
      else
        let er1 := { er with is_moving := true, target_position := some name }
        let r : Bool × MState × List AdapterOp :=
          if er.use_lerobot then move_lerobot m target duration
          else (true, m, [])
        let er2 :=
          if r.1 then { er1 with current_position := name } else er1
        let evMid : List REvent :=
          if r.1 then [REvent.position_reached name] else []
        let er3 := { er2 with target_position := none, is_moving := false }
        (r.1, er3, r.2.1,
         REvent.movement_started name :: (evMid ++ [REvent.movement_completed name]),
         r.2.2)

/-! ## Stage controller (`stage_controller.py`) -/

/-- The PyQt signals of `StageController`. -/
inductive SEvent
  | stage_changed (old new : String)
  | stage_entered (s : String)
  | stage_exited (s : String)
deriving DecidableEq, Repr

/-- The keyword-argument bag passed to `change_stage` (values opaque). -/
abbrev Bag := List (String × String)

/-- `StageController` state. The `QTimer` is embedded as `Option ℕ`:
`some d` means armed with interval `d` ms, `none` means stopped. -/
structure StageState where
  current_stage : String
  previous_stage : Option String
  stage_data : List (String × Bag)
  idle_timer : Option ℕ
deriving DecidableEq, Repr

/-- The idle timeout duration set in `StageController.__init__` (30 s). -/
def idle_timeout_duration : ℕ := 30000

/-- The `valid_stages` list of `StageController._is_valid_stage`
(the `AppSettings.Stage` constants). -/
def valid_stages : List String :=
  ["rest", "primary_interaction", "menu_detail", "object_recognition",
   "smart_control", "tracking_mode", "game_mode", "keyboard_input"]

/-- `StageController._is_valid_stage`. -/
def is_valid_stage (stage : String) : Bool := valid_stages.contains stage

/-- The controller's initial state: `AppSettings.DEFAULT_STAGE` is `"rest"`,
no previous stage, empty data bags, idle timer not yet started. -/
def initStage : StageState :=
  { current_stage := "rest", previous_stage := none, stage_data := [],
    idle_timer := none }

/-- `StageController._reset_idle_timer`: arm with the 30 000 ms interval
whenever the current stage is not `"rest"`, stop otherwise. -/
def reset_idle_timer (s : StageState) : StageState :=
  if s.current_stage ≠ "rest" then { s with idle_timer := some idle_timeout_duration }
  else { s with idle_timer := none }

/-- `StageController.change_stage(new_stage, **kwargs)`: a call naming the
current stage succeeds immediately without touching anything; an invalid
stage name is rejected without touching anything; otherwise the kwargs (when
nonempty) are stored for the new stage, the old stage is exited, the new one
entered (the per-stage enter/exit hook bodies only log), the
`stage_exited` / `stage_entered` / `stage_changed` signals are emitted in
that order, and the idle timer is reset. -/
def change_stage (s : StageState) (new_stage : String) (kw : Bag) :
    Bool × StageState × List SEvent :=
  if new_stage = s.current_stage then (true, s, [])
  else if ¬ is_valid_stage new_stage then (false, s, [])
  else
    let s1 := if kw.isEmpty then s
              else { s with stage_data := setKey s.stage_data new_stage kw }
    let old := s.current_stage
    let s2 := { s1 with previous_stage := some old, current_stage := new_stage }
    let s3 := reset_idle_timer s2
    (true, s3,
     [SEvent.stage_exited old, SEvent.stage_entered new_stage,
      SEvent.stage_changed old new_stage])

/-- `StageController.start`: enter the current (default) stage, emitting
`stage_entered`, then start the idle timer. -/
def stage_start (s : StageState) : Bool × StageState × List SEvent :=
  (true, reset_idle_timer s, [SEvent.stage_entered s.current_stage])

/-- `StageController.on_user_activity`: just reset the idle timer. -/
def on_user_activity (s : StageState) : StageState := reset_idle_timer s

/-- `StageController._on_idle_timeout`: `go_to_rest`, i.e.
`change_stage("rest")` with no kwargs. -/
def on_idle_timeout (s : StageState) : Bool × StageState × List SEvent :=
  change_stage s "rest" []

/-- The idle-timer invariant of the spec: the timer is armed exactly when the
current stage is not `"rest"`. -/
def idle_invariant (s : StageState) : Prop :=
  s.idle_timer.isSome = true ↔ s.current_stage ≠ "rest"

instance (s : StageState) : Decidable (idle_invariant s) := by
  unfold idle_invariant; infer_instance

/-! ## Concrete fixture states (used by witnesses and counterexamples) -/

/-- The SO101 joint-limit table restricted to two joints
(`get_so101_joint_limits`). -/
def demoLimits : List (String × (ℚ × ℚ)) :=
  [("shoulder_pan", (-2048, 2048)), ("shoulder_lift", (-2048, 2048))]

/-- The seeded `"rest"` preset restricted to two joints. -/
def restPos : Position := [("shoulder_pan", 0), ("shoulder_lift", -1024)]

/-- A target outside the `shoulder_pan` limit range. -/
def badPos : Position := [("shoulder_pan", 3000)]

/-- A connected mock-mode manipulator with one follower arm. -/
def mockRobot : MState :=
  { is_connected := true, mock_mode := true, has_follower := true,
    follower_motors := ["shoulder_pan", "shoulder_lift"],
    mock_positions := [("shoulder_pan", 0), ("shoulder_lift", 0)],
    max_relative_target := none, real_present := [], real_write_ok := true,
    real_connect := RealConnect.ok }

/-- The same manipulator before any connection. -/
def offlineRobot : MState := { mockRobot with is_connected := false }

/-- A disconnected real-mode manipulator whose driver raises a
non-`ImportError` exception while connecting. -/
def realFailRobot : MState :=
  { mockRobot with
    is_connected := false, mock_mode := false,
    real_connect := RealConnect.raiseError }

/-- A disconnected real-mode manipulator whose driver import is missing. -/
def importFailRobot : MState :=
  { realFailRobot with real_connect := RealConnect.importError }

/-- A connected, idle enhanced interface holding the `"rest"` and `"bad"`
presets. -/
def readyER : ERState :=
  { is_connected := true, current_position := "unknown",
    target_position := none, is_moving := false, torque_enabled := false,
    saved_positions := [("rest", restPos), ("bad", badPos)],
    joint_limits := demoLimits, use_lerobot := true }

/-- The same interface while a movement to `"rest"` is in flight. -/
def busyER : ERState :=
  { readyER with is_moving := true, target_position := some "rest" }

/-! ## Helper lemmas -/

theorem m_connect_mock_mock_mode (m : MState) :
    (m_connect_mock m).mock_mode = m.mock_mode := by
  unfold m_connect_mock; split <;> rfl

theorem reset_idle_timer_current (s : StageState) :
    (reset_idle_timer s).current_stage = s.current_stage := by
  unfold reset_idle_timer; split <;> rfl

theorem idle_invariant_reset (s : StageState) :
    idle_invariant (reset_idle_timer s) := by
  unfold idle_invariant reset_idle_timer
  by_cases h : s.current_stage = "rest" <;> simp [h]

theorem reset_idle_timer_timer (s : StageState) :
    (reset_idle_timer s).idle_timer =
      (if s.current_stage = "rest" then none else some idle_timeout_duration) := by
  unfold reset_idle_timer
  by_cases h : s.current_stage = "rest" <;> simp [h]

/-- The success branch of `change_stage`: resulting invariant, timer value
and current stage. -/
theorem change_stage_success_parts (s : StageState) (new_stage : String)
    (kw : Bag) (heq : ¬ new_stage = s.current_stage)
    (hv : is_valid_stage new_stage = true) :
    idle_invariant (change_stage s new_stage kw).2.1 ∧
    (change_stage s new_stage kw).2.1.idle_timer =
      (if new_stage = "rest" then none else some idle_timeout_duration) ∧
    (change_stage s new_stage kw).2.1.current_stage = new_stage := by
  unfold change_stage
  rw [if_neg heq, if_neg (not_not_intro hv)]
  refine ⟨idle_invariant_reset _, ?_, ?_⟩
  · rw [reset_idle_timer_timer]
  · rw [reset_idle_timer_current]

/-! ## Stage-machine claims -/

/-- **C8.** `change_stage` to the current stage is a no-op: it returns
success, emits no `stage_changed`/`stage_entered`/`stage_exited` events (in
particular runs no enter/exit hooks), and leaves the whole controller state
— `current_stage`, `previous_stage`, stage data and idle timer — unchanged. -/
theorem change_stage_noop (s : StageState) (new_stage : String) (kw : Bag)
    (h : new_stage = s.current_stage) :
    change_stage s new_stage kw = (true, s, []) := by
  unfold change_stage
  simp [h]

/-- Witness for `change_stage_noop` at a concrete state. -/
theorem change_stage_noop_witness :
    "rest" = initStage.current_stage ∧
    change_stage initStage "rest" [] = (true, initStage, []) :=
  ⟨rfl, change_stage_noop initStage "rest" [] rfl⟩

/-- **C7.** `current_stage` always stays in the closed stage set: the default
stage `"rest"` is a member, a `change_stage` call with a name outside the set
returns failure and mutates nothing (state returned unchanged, no events),
and any call made from a valid current stage leaves the current stage a
member of the set. -/
theorem change_stage_closed_set (s : StageState) (new_stage : String) (kw : Bag)
    (hcur : is_valid_stage s.current_stage = true) :
    is_valid_stage initStage.current_stage = true ∧
    (is_valid_stage new_stage = false →
      change_stage s new_stage kw = (false, s, [])) ∧
    is_valid_stage (change_stage s new_stage kw).2.1.current_stage = true := by
  refine ⟨by decide, ?_, ?_⟩
  · intro hinv
    by_cases heq : new_stage = s.current_stage
    · rw [heq, hcur] at hinv; cases hinv
    · unfold change_stage
      simp [heq, hinv]
  · by_cases heq : new_stage = s.current_stage
    · rw [change_stage_noop s new_stage kw heq]
      exact hcur
    · by_cases hv : is_valid_stage new_stage = true
      · unfold change_stage
        simp [heq, hv, reset_idle_timer_current]
      · unfold change_stage
        simp [heq, hv]
        exact hcur

/-- Witness for `change_stage_closed_set` at a concrete state. -/
theorem change_stage_closed_set_witness :
    is_valid_stage initStage.current_stage = true ∧
    (is_valid_stage initStage.current_stage = true ∧
      (is_valid_stage "bogus" = false →
        change_stage initStage "bogus" [] = (false, initStage, [])) ∧
      is_valid_stage (change_stage initStage "bogus" []).2.1.current_stage = true) :=
  ⟨by decide, change_stage_closed_set initStage "bogus" [] (by decide)⟩

/-- **C9.** The idle timer is armed exactly when the current stage is not
`"rest"`, after `start`, after any `change_stage` call (assuming the
invariant held before, as it does in every reachable state), and after
`on_user_activity`; a successful change arms the timer with the 30 000 ms
default for a non-rest stage and disarms it for `"rest"`; user activity
rearms it while outside `"rest"`; and an idle-timeout expiry forces the
current stage to `"rest"`. -/
theorem idle_timer_spec (s : StageState) (new_stage : String) (kw : Bag)
    (hinv : idle_invariant s) :
    idle_invariant (stage_start s).2.1 ∧
    (stage_start s).2.1.idle_timer =
      (if s.current_stage = "rest" then none else some 30000) ∧
    idle_invariant (change_stage s new_stage kw).2.1 ∧
    (new_stage ≠ s.current_stage → is_valid_stage new_stage = true →
      (change_stage s new_stage kw).2.1.idle_timer =
        (if new_stage = "rest" then none else some 30000)) ∧
    idle_invariant (on_user_activity s) ∧
    (s.current_stage ≠ "rest" → (on_user_activity s).idle_timer = some 30000) ∧
    (on_idle_timeout s).2.1.current_stage = "rest" := by
  refine ⟨idle_invariant_reset s, reset_idle_timer_timer s, ?_, ?_, ?_, ?_, ?_⟩
  · by_cases heq : new_stage = s.current_stage
    · rw [change_stage_noop s new_stage kw heq]; exact hinv
    · by_cases hv : is_valid_stage new_stage = true
      · exact (change_stage_success_parts s new_stage kw heq hv).1
      · unfold change_stage
        rw [if_neg heq, if_pos (fun hc => hv hc)]
        exact hinv
  · intro heq hv
    rw [(change_stage_success_parts s new_stage kw heq hv).2.1]; rfl
  · exact idle_invariant_reset s
  · intro h
    unfold on_user_activity
    rw [reset_idle_timer_timer, if_neg h]; rfl
  · unfold on_idle_timeout
    by_cases heq : "rest" = s.current_stage
    · rw [change_stage_noop s "rest" [] heq]; exact heq.symm
    · exact (change_stage_success_parts s "rest" [] heq (by decide)).2.2

/-- Witness for `idle_timer_spec` at a concrete state. -/
theorem idle_timer_spec_witness :
    idle_invariant initStage ∧
    (idle_invariant (stage_start initStage).2.1 ∧
      (stage_start initStage).2.1.idle_timer =
        (if initStage.current_stage = "rest" then none else some 30000) ∧
      idle_invariant (change_stage initStage "tracking_mode" []).2.1 ∧
      ("tracking_mode" ≠ initStage.current_stage →
        is_valid_stage "tracking_mode" = true →
        (change_stage initStage "tracking_mode" []).2.1.idle_timer =
          (if "tracking_mode" = "rest" then none else some 30000)) ∧
      idle_invariant (on_user_activity initStage) ∧
      (initStage.current_stage ≠ "rest" →
        (on_user_activity initStage).idle_timer = some 30000) ∧
      (on_idle_timeout initStage).2.1.current_stage = "rest") :=
  ⟨by decide, idle_timer_spec initStage "tracking_mode" [] (by decide)⟩

/-! ## Motion-controller claims -/

/-- The per-entry safety predicate of `check_position_safety` fails exactly
when the joint appears in the limit table and its value is out of range. -/
theorem safe_entry_false_iff (jp : String × ℚ)
    (limits : List (String × (ℚ × ℚ))) :
    (match alookup jp.1 limits with
     | some lim => decide (lim.1 ≤ jp.2 ∧ jp.2 ≤ lim.2)
     | none => true) = false ↔
      ∃ lim, alookup jp.1 limits = some lim ∧ (jp.2 < lim.1 ∨ lim.2 < jp.2) := by
  cases hlk : alookup jp.1 limits with
  | none => simp [hlk]
  | some lim =>
      simp only [hlk, decide_eq_false_iff_not, Option.some.injEq]
      constructor
      · intro h
        refine ⟨lim, rfl, ?_⟩
        rcases not_and_or.mp h with h' | h'
        · exact Or.inl (lt_of_not_le h')
        · exact Or.inr (lt_of_not_le h')
      · rintro ⟨lim', hlim', h'⟩
        subst hlim'
        rcases h' with h' | h'
        · exact fun hand => absurd hand.1 (not_le.mpr h')
        · exact fun hand => absurd hand.2 (not_le.mpr h')

/-- **C4.** A `move_to_position` call while a movement is already in flight
is rejected synchronously: it returns `False` and changes nothing — the
interface state (so `is_moving` stays `true`, the in-flight target and the
current position are untouched), the robot state, and it emits no events and
performs no adapter I/O. -/
theorem move_busy_rejected (er : ERState) (m : MState) (name : String)
    (d : Option ℚ) (h : er.is_moving = true) :
    er_move_to_position er m name d = (false, er, m, [], []) := by
  unfold er_move_to_position
  by_cases hc : er.is_connected = true
  · simp [hc, h]
  · simp [hc]

/-- Witness for `move_busy_rejected` at a concrete busy interface. -/
theorem move_busy_rejected_witness :
    busyER.is_moving = true ∧
    er_move_to_position busyER mockRobot "rest" (some 2) =
      (false, busyER, mockRobot, [], []) :=
  ⟨rfl, move_busy_rejected busyER mockRobot "rest" (some 2) rfl⟩

/-- **C1.** `check_position_safety` returns `false` exactly when some joint of
the checked position that appears in the limit table lies outside its
`[min, max]` range; and a `move_to_position` call made while connected and
not moving whose (known) target fails this check returns `False` while
performing zero adapter reads or writes, emitting nothing and mutating
nothing. -/
theorem unsafe_position_rejected (er : ERState) (m : MState) (name : String)
    (target : Position) (d : Option ℚ)
    (hc : er.is_connected = true) (hm : er.is_moving = false)
    (hl : alookup name er.saved_positions = some target)
    (hs : check_position_safety target er.joint_limits = false) :
    (∀ (positions : Position) (limits : List (String × (ℚ × ℚ))),
        check_position_safety positions limits = false ↔
          ∃ jp ∈ positions, ∃ lim, alookup jp.1 limits = some lim ∧
            (jp.2 < lim.1 ∨ lim.2 < jp.2)) ∧
    er_move_to_position er m name d = (false, er, m, [], []) := by
  constructor
  · intro positions limits
    unfold check_position_safety
    rw [List.all_eq_false]
    constructor
    · rintro ⟨jp, hmem, hfail⟩
      rw [Bool.not_eq_true] at hfail
      exact ⟨jp, hmem, (safe_entry_false_iff jp limits).mp hfail⟩
    · rintro ⟨jp, hmem, hout⟩
      refine ⟨jp, hmem, ?_⟩
      rw [Bool.not_eq_true]
      exact (safe_entry_false_iff jp limits).mpr hout
  · unfold er_move_to_position
    simp [hc, hm, hl, hs]

/-- Witness for `unsafe_position_rejected`: the `"bad"` preset puts
`shoulder_pan` at 3000, beyond its 2048 limit. -/
theorem unsafe_position_rejected_witness :
    (readyER.is_connected = true ∧ readyER.is_moving = false ∧
      alookup "bad" readyER.saved_positions = some badPos ∧
      check_position_safety badPos readyER.joint_limits = false) ∧
    ((∀ (positions : Position) (limits : List (String × (ℚ × ℚ))),
        check_position_safety positions limits = false ↔
          ∃ jp ∈ positions, ∃ lim, alookup jp.1 limits = some lim ∧
            (jp.2 < lim.1 ∨ lim.2 < jp.2)) ∧
      er_move_to_position readyER mockRobot "bad" none =
        (false, readyER, mockRobot, [], [])) :=
  ⟨⟨rfl, rfl, by decide, by decide⟩,
   unsafe_position_rejected readyER mockRobot "bad" badPos none rfl rfl
     (by decide) (by decide)⟩

/-- **C5 (counterexample).** A real-device connect failure other than a
missing driver import (here: the bus constructor raising) makes `connect()`
return `False` and stay disconnected — no mock fallback — even though the
mock path of the very same robot would initialize fine. This refutes the
claim that any real connect failure falls back to the mock adapter. -/
theorem connect_no_fallback_on_raise :
    realFailRobot.is_connected = false ∧
    realFailRobot.mock_mode = false ∧
    realFailRobot.real_connect = RealConnect.raiseError ∧
    m_connect realFailRobot = (realFailRobot, false) ∧
    m_is_mock (m_connect realFailRobot).1 = false ∧
    (m_connect { realFailRobot with mock_mode := true }).2 = true := by
  refine ⟨rfl, rfl, rfl, by decide, by decide, by decide⟩

/-- **C5 (amended).** The mock fallback exists only for a missing driver
module: when `_connect_real_devices` hits an `ImportError`, `connect()`
still succeeds, the robot reaches the connected state, and `is_mock()`
reports `true` afterward. Any other real-device failure propagates to the
generic handler, which reports failure without trying the mock path. -/
theorem connect_import_fallback (m : MState)
    (h1 : m.is_connected = false) (h2 : m.mock_mode = false)
    (h3 : m.real_connect = RealConnect.importError) :
    (m_connect m).2 = true ∧
    (m_connect m).1.is_connected = true ∧
    m_is_mock (m_connect m).1 = true := by
  unfold m_connect
  rw [h1, h2, h3]
  simp [m_is_mock, m_connect_mock_mock_mode]

/-- Witness for `connect_import_fallback` at a concrete robot. -/
theorem connect_import_fallback_witness :
    (importFailRobot.is_connected = false ∧
      importFailRobot.mock_mode = false ∧
      importFailRobot.real_connect = RealConnect.importError) ∧
    ((m_connect importFailRobot).2 = true ∧
      (m_connect importFailRobot).1.is_connected = true ∧
      m_is_mock (m_connect importFailRobot).1 = true) :=
  ⟨⟨rfl, rfl, rfl⟩, connect_import_fallback importFailRobot rfl rfl rfl⟩

/-- **C6 (counterexample).** A failing `move_to_position` call that emits no
event at all: the busy rejection returns `False` with an empty event list,
refuting the claim that every failure is delivered as an event plus a
return value. -/
theorem move_failure_without_event :
    busyER.is_moving = true ∧
    er_move_to_position busyER mockRobot "rest" none =
      (false, busyER, mockRobot, [], []) := by
  exact ⟨rfl, by decide⟩

/-- **C6 (amended).** Failing `move_to_position` calls return `False`, but
the early rejections emit no events at all, and an adapter write failure
mid-movement (here: the inner robot raising on its write because it is not
connected) clears the moving flag and emits `movement_started` followed by
`movement_completed` — not an error event. -/
theorem move_write_failure_events (er : ERState) (m : MState) (name : String)
    (target : Position)
    (hc : er.is_connected = true) (hm : er.is_moving = false)
    (hl : alookup name er.saved_positions = some target)
    (hs : check_position_safety target er.joint_limits = true)
    (hu : er.use_lerobot = true) (hr : m.is_connected = false) :
    er_move_to_position er m name none =
      (false, { er with target_position := none, is_moving := false }, m,
       [REvent.movement_started name, REvent.movement_completed name], []) ∧
    ∀ msg, REvent.error_occurred msg ∉
      (er_move_to_position er m name none).2.2.2.1 := by
  have hmain : er_move_to_position er m name none =
      (false, { er with target_position := none, is_moving := false }, m,
       [REvent.movement_started name, REvent.movement_completed name], []) := by
    unfold er_move_to_position move_lerobot m_move_to_position m_write_position
    simp [hc, hm, hl, hs, hu, hr]
  refine ⟨hmain, ?_⟩
  intro msg
  rw [hmain]
  simp

/-- Witness for `move_write_failure_events`: moving to the `"rest"` preset
through a disconnected inner robot. -/
theorem move_write_failure_events_witness :
    (readyER.is_connected = true ∧ readyER.is_moving = false ∧
      alookup "rest" readyER.saved_positions = some restPos ∧
      check_position_safety restPos readyER.joint_limits = true ∧
      readyER.use_lerobot = true ∧ offlineRobot.is_connected = false) ∧
    (er_move_to_position readyER offlineRobot "rest" none =
      (false, { readyER with target_position := none, is_moving := false },
       offlineRobot,
       [REvent.movement_started "rest", REvent.movement_completed "rest"], []) ∧
    ∀ msg, REvent.error_occurred msg ∉
      (er_move_to_position readyER offlineRobot "rest" none).2.2.2.1) :=
  ⟨⟨rfl, rfl, by decide, by decide, rfl, rfl⟩,
   move_write_failure_events readyER offlineRobot "rest" restPos rfl rfl
     (by decide) (by decide) rfl rfl⟩

/-- The clamped delta stays inside `[-M, M]`. -/
theorem ensure_safe_abs (g p M : ℚ) (hM : 0 ≤ M) :
    |ensure_safe_goal_position g p M - p| ≤ M := by
  unfold ensure_safe_goal_position
  rw [add_sub_cancel_left, abs_le]
  exact ⟨le_max_right _ _, max_le (min_le_right _ _) (neg_le_self hM)⟩

/-- A request already within the relative bound passes through unchanged. -/
theorem ensure_safe_id (g p M : ℚ) (h : |g - p| ≤ M) :
    ensure_safe_goal_position g p M = g := by
  unfold ensure_safe_goal_position
  rw [abs_le] at h
  rw [min_eq_left h.2, max_eq_left h.1]
  ring

/-- Entry-wise shape of the clamped position: keys are preserved and each
joint with a present value ends within `M` of it. -/
theorem apply_safe_forall₂ (present : Position) (M : ℚ) (hM : 0 ≤ M)
    (goal : Position) :
    List.Forall₂ (fun jg jr => jg.1 = jr.1 ∧
        ∀ q, alookup jg.1 present = some q → |jr.2 - q| ≤ M)
      goal (apply_safe_goal goal present M) := by
  induction goal with
  | nil => exact List.Forall₂.nil
  | cons jg rest ih =>
      have hmap : apply_safe_goal (jg :: rest) present M =
          (match alookup jg.1 present with
           | some p => (jg.1, ensure_safe_goal_position jg.2 p M)
           | none => (jg.1, jg.2)) :: apply_safe_goal rest present M := rfl
      rw [hmap]
      cases hlk : alookup jg.1 present with
      | none =>
          refine List.Forall₂.cons ⟨rfl, fun q hq => ?_⟩ ih
          rw [hlk] at hq; cases hq
      | some pv =>
          refine List.Forall₂.cons ⟨rfl, fun q hq => ?_⟩ ih
          rw [hlk] at hq
          injection hq with hq
          subst hq
          exact ensure_safe_abs jg.2 pv M hM

/-- When every requested joint is within `M` of its present value, the
clamp is the identity on the whole position. -/
theorem apply_safe_id (present : Position) (M : ℚ) (goal : Position)
    (h : ∀ jg ∈ goal, ∀ q, alookup jg.1 present = some q → |jg.2 - q| ≤ M) :
    apply_safe_goal goal present M = goal := by
  induction goal with
  | nil => rfl
  | cons jg rest ih =>
      have hmap : apply_safe_goal (jg :: rest) present M =
          (match alookup jg.1 present with
           | some p => (jg.1, ensure_safe_goal_position jg.2 p M)
           | none => (jg.1, jg.2)) :: apply_safe_goal rest present M := rfl
      rw [hmap]
      have hhead : (match alookup jg.1 present with
           | some p => (jg.1, ensure_safe_goal_position jg.2 p M)
           | none => (jg.1, jg.2)) = jg := by
        cases hlk : alookup jg.1 present with
        | none => rfl
        | some pv =>
            have hb := h jg (List.mem_cons_self _ _) pv hlk
            show (jg.1, ensure_safe_goal_position jg.2 pv M) = jg
            rw [ensure_safe_id jg.2 pv M hb]
      rw [hhead, ih fun jg' hmem => h jg' (List.mem_cons_of_mem _ hmem)]

/-- **C2.** The safety clamp: each clamped component lies within `M` of the
present value (scalar form and, entry-wise, on whole positions), a request
whose delta is within the bound passes through unchanged (scalar and whole
position), and the operation always returns a result — bounding is never an
error. -/
theorem safety_clamp_spec (M : ℚ) (hM : 0 ≤ M) (g p : ℚ)
    (goal present : Position) :
    |ensure_safe_goal_position g p M - p| ≤ M ∧
    (|g - p| ≤ M → ensure_safe_goal_position g p M = g) ∧
    List.Forall₂ (fun jg jr => jg.1 = jr.1 ∧
        ∀ q, alookup jg.1 present = some q → |jr.2 - q| ≤ M)
      goal (apply_safe_goal goal present M) ∧
    ((∀ jg ∈ goal, ∀ q, alookup jg.1 present = some q → |jg.2 - q| ≤ M) →
      apply_safe_goal goal present M = goal) :=
  ⟨ensure_safe_abs g p M hM, ensure_safe_id g p M,
   apply_safe_forall₂ present M hM goal, apply_safe_id present M goal⟩

/-- Witness for `safety_clamp_spec`: bound 100, one joint over the bound and
one within it. -/
theorem safety_clamp_spec_witness :
    (0 : ℚ) ≤ 100 ∧
    (|ensure_safe_goal_position 350 50 100 - 50| ≤ 100 ∧
      (|(350 : ℚ) - 50| ≤ 100 → ensure_safe_goal_position 350 50 100 = 350) ∧
      List.Forall₂ (fun jg jr => jg.1 = jr.1 ∧
          ∀ q, alookup jg.1 [("shoulder_pan", (50 : ℚ))] = some q →
            |jr.2 - q| ≤ 100)
        [("shoulder_pan", (350 : ℚ)), ("wrist_roll", 7)]
        (apply_safe_goal [("shoulder_pan", 350), ("wrist_roll", 7)]
          [("shoulder_pan", 50)] 100) ∧
      ((∀ jg ∈ ([("shoulder_pan", (350 : ℚ)), ("wrist_roll", 7)] : Position),
          ∀ q, alookup jg.1 [("shoulder_pan", (50 : ℚ))] = some q →
            |jg.2 - q| ≤ 100) →
        apply_safe_goal [("shoulder_pan", 350), ("wrist_roll", 7)]
          [("shoulder_pan", 50)] 100 =
          [("shoulder_pan", 350), ("wrist_roll", 7)])) :=
  ⟨by norm_num,
   safety_clamp_spec 100 (by norm_num) 350 50
     [("shoulder_pan", 350), ("wrist_roll", 7)] [("shoulder_pan", 50)]⟩

/-- **C10.** `interpolate_positions` with `steps = 0` divides by zero and
fails rather than returning a single-waypoint path; a duration-based move
computes `steps = int(duration * 10)`, which is `0` for every positive
duration below 0.1 s, and the smooth-move path of a connected robot then
reports failure. -/
theorem interpolate_zero_steps_fails (s e : Position) (d : ℚ)
    (h1 : 0 < d) (h2 : d < 1 / 10) :
    interpolate_positions s e 0 = none ∧
    lerobotSteps d = 0 ∧
    interpolate_positions s e (lerobotSteps d) = none ∧
    ∀ m : MState, m.is_connected = true →
      (smooth_move_to_position m e (lerobotSteps d)).2.1 = false := by
  have hzero : interpolate_positions s e 0 = none := by
    unfold interpolate_positions
    norm_num
  have hsteps : lerobotSteps d = 0 := by
    unfold lerobotSteps ratTrunc
    have hge : (0 : ℚ) ≤ d * 10 := by positivity
    rw [if_pos hge, Int.floor_eq_zero_iff]
    constructor
    · exact hge
    · show d * 10 < 1
      linarith
  refine ⟨hzero, hsteps, hsteps ▸ hzero, ?_⟩
  intro m hm
  unfold smooth_move_to_position
  have hread : m_read_position m = some (if m.mock_mode then
      (if m.has_follower then m.mock_positions else []) else m.real_present) := by
    unfold m_read_position
    rw [if_pos hm]
  rw [hread, hsteps]
  have : interpolate_positions (if m.mock_mode then
      (if m.has_follower then m.mock_positions else []) else m.real_present) e 0 =
      none := by
    unfold interpolate_positions
    norm_num
  simp [this]

/-- Witness for `interpolate_zero_steps_fails` at `duration = 0.05 s`. -/
theorem interpolate_zero_steps_fails_witness :
    ((0 : ℚ) < 1 / 20 ∧ (1 : ℚ) / 20 < 1 / 10) ∧
    (interpolate_positions restPos badPos 0 = none ∧
      lerobotSteps (1 / 20) = 0 ∧
      interpolate_positions restPos badPos (lerobotSteps (1 / 20)) = none ∧
      ∀ m : MState, m.is_connected = true →
        (smooth_move_to_position m badPos (lerobotSteps (1 / 20))).2.1 = false) :=
  ⟨⟨by norm_num, by norm_num⟩,
   interpolate_zero_steps_fails restPos badPos (1 / 20) (by norm_num)
     (by norm_num)⟩

/-- Lookup in a key-preserving entry map. -/
theorem alookup_map_entry (f : String → ℚ → ℚ) (j : String) (s : Position) :
    alookup j (s.map fun kv => (kv.1, f kv.1 kv.2)) =
      (alookup j s).map (f j) := by
  induction s with
  | nil => rfl
  | cons kv rest ih =>
      obtain ⟨k, w⟩ := kv
      by_cases hk : k = j
      · subst hk
        simp [alookup]
      · simp [alookup, hk, ih]

/-- `interpStep` written as a key-preserving entry map. -/
theorem interpStep_eq_map (s e : Position) (t : ℚ) :
    interpStep s e t = s.map fun kv =>
      (kv.1, match alookup kv.1 e with
             | some ev => kv.2 + t * (ev - kv.2)
             | none => kv.2) := by
  unfold interpStep
  refine List.map_congr_left fun kv _ => ?_
  cases h : alookup kv.1 e <;> simp [h]

/-- Value of a waypoint at a joint present in both endpoint positions. -/
theorem alookup_interpStep (s e : Position) (t : ℚ) (j : String) (v ev : ℚ)
    (hs : alookup j s = some v) (he : alookup j e = some ev) :
    alookup j (interpStep s e t) = some (v + t * (ev - v)) := by
  rw [interpStep_eq_map,
    alookup_map_entry (fun j' v' => match alookup j' e with
      | some ev' => v' + t * (ev' - v') | none => v') j s, hs]
  simp [he]

/-- The waypoint at parameter 0 is the start position. -/
theorem interpStep_zero (s e : Position) : interpStep s e 0 = s := by
  induction s with
  | nil => rfl
  | cons kv rest ih =>
      unfold interpStep at ih ⊢
      rw [List.map_cons, ih]
      congr 1
      cases h : alookup kv.1 e <;> simp [h]

/-- A head entry of the end position touching no key of `s` does not change
the interpolation. -/
theorem interpStep_cons_ne (s : Position) (k : String) (ev : ℚ)
    (e : Position) (t : ℚ) (h : ∀ jv ∈ s, jv.1 ≠ k) :
    interpStep s ((k, ev) :: e) t = interpStep s e t := by
  unfold interpStep
  refine List.map_congr_left fun jv hmem => ?_
  have hlk : alookup jv.1 ((k, ev) :: e) = alookup jv.1 e := by
    show (if k = jv.1 then some ev else alookup jv.1 e) = alookup jv.1 e
    rw [if_neg fun hk => (h jv hmem) hk.symm]
  rw [hlk]

/-- The waypoint at parameter 1 is the end position, provided the two
positions range over the same joints in the same order with no duplicate
joint names. -/
theorem interpStep_one (s : Position) : ∀ e : Position,
    s.map Prod.fst = e.map Prod.fst → (e.map Prod.fst).Nodup →
    interpStep s e 1 = e := by
  induction s with
  | nil =>
      intro e hkeys _
      rw [List.map_eq_nil_iff.mp hkeys.symm]
      rfl
  | cons kv rest ih =>
      intro e hkeys hnodup
      obtain ⟨k, w⟩ := kv
      cases e with
      | nil => cases hkeys
      | cons ke etail =>
          obtain ⟨k', ev⟩ := ke
          simp only [List.map_cons] at hkeys
          injection hkeys with hk hkeys'
          subst hk
          simp only [List.map_cons, List.nodup_cons] at hnodup
          obtain ⟨hknotin, hnodup'⟩ := hnodup
          show (match alookup k ((k, ev) :: etail) with
                | some e' => (k, w + 1 * (e' - w))
                | none => (k, w)) :: interpStep rest ((k, ev) :: etail) 1 =
              (k, ev) :: etail
          have h1 : alookup k ((k, ev) :: etail) = some ev := by
            show (if k = k then some ev else alookup k etail) = some ev
            rw [if_pos rfl]
          rw [h1]
          have h2 : interpStep rest ((k, ev) :: etail) 1 =
              interpStep rest etail 1 := by
            refine interpStep_cons_ne rest k ev etail 1 fun jv hmem hk => ?_
            exact hknotin (hkeys' ▸ (hk ▸ List.mem_map_of_mem Prod.fst hmem))
          rw [h2, ih etail hkeys' hnodup']
          show (k, w + 1 * (ev - w)) :: etail = (k, ev) :: etail
          have h3 : w + 1 * (ev - w) = ev := by ring
          rw [h3]

/-- **C3.** For `steps = N ≥ 1` and positions over the same joints (same
key sequence, no duplicate names), the interpolation yields exactly `N + 1`
waypoints; waypoint 0 is the start position, waypoint `N` is the end
position, and at every index `i` each joint present in both endpoints sits
at `start + (i/N) * (end - start)` — linear in `i`. -/
theorem interpolation_spec (s e : Position) (N : ℕ) (hN : 1 ≤ N)
    (hkeys : s.map Prod.fst = e.map Prod.fst)
    (hnodup : (e.map Prod.fst).Nodup) :
    ∃ wps : List Position,
      interpolate_positions s e (N : ℤ) = some wps ∧
      wps.length = N + 1 ∧
      wps.head? = some s ∧
      wps.getLast? = some e ∧
      ∀ (i : ℕ) wp, wps[i]? = some wp → ∀ j v ev,
        alookup j s = some v → alookup j e = some ev →
        alookup j wp = some (v + ((i : ℚ) / (N : ℚ)) * (ev - v)) := by
  have hNz : (N : ℤ) ≠ 0 := by exact_mod_cast Nat.one_le_iff_ne_zero.mp hN
  have hneg : ¬ ((N : ℤ) + 1 ≤ 0) := by omega
  have hcast : (((N : ℤ)) : ℚ) = (N : ℚ) := by push_cast; rfl
  have hQz : (N : ℚ) ≠ 0 := by exact_mod_cast Nat.one_le_iff_ne_zero.mp hN
  have hunfold : interpolate_positions s e (N : ℤ) =
      some ((List.range (N + 1)).map fun step : ℕ =>
        interpStep s e ((step : ℚ) / (((N : ℤ)) : ℚ))) := by
    unfold interpolate_positions
    rw [if_neg hneg, if_neg hNz, Int.toNat_natCast]
  refine ⟨_, hunfold, ?_, ?_, ?_, ?_⟩
  · rw [List.length_map, List.length_range]
  · rw [List.head?_map, List.range_succ_eq_map, List.head?_cons,
      Option.map_some']
    have h0 : ((0 : ℕ) : ℚ) / (((N : ℤ)) : ℚ) = 0 := by
      norm_num
    rw [h0, interpStep_zero]
  · rw [List.getLast?_eq_getElem?, List.length_map, List.length_range,
      Nat.add_sub_cancel, List.getElem?_map,
      List.getElem?_range (Nat.lt_succ_self N), Option.map_some']
    have h1 : ((N : ℕ) : ℚ) / (((N : ℤ)) : ℚ) = 1 := by
      rw [hcast]
      exact div_self hQz
    rw [h1, interpStep_one s e hkeys hnodup]
  · intro i wp hwp j v ev hv hev
    rw [List.getElem?_map] at hwp
    cases hri : (List.range (N + 1))[i]? with
    | none => rw [hri] at hwp; cases hwp
    | some step =>
        rw [hri, Option.map_some'] at hwp
        injection hwp with hwp
        obtain ⟨hlt, hget⟩ := List.getElem?_eq_some_iff.mp hri
        rw [List.getElem_range] at hget
        subst hget
        subst hwp
        rw [hcast]
        exact alookup_interpStep s e _ j v ev hv hev

/-- Witness for `interpolation_spec`: the end-to-end scenario of the spec,
`steps = 2` from `{pan: 100, lift: -900}` to `{pan: 0, lift: -1024}`. -/
theorem interpolation_spec_witness :
    (1 ≤ 2 ∧
      ([("shoulder_pan", (100 : ℚ)), ("shoulder_lift", -900)] : Position).map
          Prod.fst = restPos.map Prod.fst ∧
      (restPos.map Prod.fst).Nodup) ∧
    (∃ wps : List Position,
      interpolate_positions
          [("shoulder_pan", 100), ("shoulder_lift", -900)] restPos
          ((2 : ℕ) : ℤ) = some wps ∧
      wps.length = 2 + 1 ∧
      wps.head? = some [("shoulder_pan", 100), ("shoulder_lift", -900)] ∧
      wps.getLast? = some restPos ∧
      ∀ (i : ℕ) wp, wps[i]? = some wp → ∀ j v ev,
        alookup j [("shoulder_pan", (100 : ℚ)), ("shoulder_lift", -900)] =
          some v →
        alookup j restPos = some ev →
        alookup j wp = some (v + ((i : ℚ) / ((2 : ℕ) : ℚ)) * (ev - v))) :=
  ⟨⟨by decide, by decide, by decide⟩,
   interpolation_spec [("shoulder_pan", 100), ("shoulder_lift", -900)]
     restPos 2 (by decide) (by decide) (by decide)⟩

end ProjecTo
